import Mathlib

/-!
Verification of the EchoPost buffering agent against its specification.

The Go sources are shallowly embedded: JSON documents become an inductive
tree (`Json`), the Pebble store becomes an association list from string keys
to stored JSON values, the HTTP delivery collaborator becomes an explicit
outcome value (`HttpOutcome`), and the effectful functions of the `tools`
package (`sendToServer`, `ProcessPebble`, `deleteKeysBatch`, `SendLog`,
`EnableAcceptingFlag`, the main control loop) become pure functions that
take their environment inputs (clock reading, random draw, cancellation
checks, simulated remote responses) as explicit arguments and return their
effects (queue updates, appended outcome-log lines, returned errors)
explicitly.
-/

namespace EchoPost

/-- JSON values, as stored in Pebble and exchanged with the remote server.
Go decodes JSON numbers to float64; numeric payload values are opaque to
every function verified here, so they are abstracted as integers. -/
inductive Json where
  | null
  | bool (b : Bool)
  | num (n : Int)
  | str (s : String)
  | arr (xs : List Json)
  | obj (fields : List (String × Json))
deriving Repr

/-- Mirrors the `logRecord` struct of `tools` (part_000):
payload (a `map[string]any`, embedded as an association list), pipeline
tags, and the received-at timestamp string. -/
structure LogRecordT where
  Payload : List (String × Json)
  Pipelines : List String
  ReceivedAt : String
deriving Repr

/-- JSON field lookup, as `encoding/json` resolves struct fields by name. -/
def lookupField (fields : List (String × Json)) (name : String) : Option Json :=
  fields.lookup name

/-- Encoding of a `logRecord` by `json.Marshal`, by the struct tags
payload / pipelines / received_at (part_000, lines 106-110 and 126). -/
def encodeLogRecord (r : LogRecordT) : Json :=
  .obj [("payload", .obj r.Payload),
        ("pipelines", .arr (r.Pipelines.map .str)),
        ("received_at", .str r.ReceivedAt)]

/-- Decoding a JSON array into `[]string`, as `json.Unmarshal` does:
every element must be a string. -/
def decodeStringList : List Json → Option (List String)
  | [] => some []
  | .str s :: rest => (decodeStringList rest).map (s :: ·)
  | _ => none

/-- Decoding the `payload` field into `map[string]any`: a missing field or
JSON null yields the zero value (empty map), an object yields its fields,
anything else is a type-mismatch error. -/
def decodePayload : Option Json → Option (List (String × Json))
  | none => some []
  | some (.obj kvs) => some kvs
  | some .null => some []
  | some _ => none

/-- Decoding the `pipelines` field into `[]string`. -/
def decodePipelines : Option Json → Option (List String)
  | none => some []
  | some (.arr xs) => decodeStringList xs
  | some .null => some []
  | some _ => none

/-- Decoding the `received_at` field into `string`. -/
def decodeReceivedAt : Option Json → Option String
  | none => some ""
  | some (.str s) => some s
  | some .null => some ""
  | some _ => none

/-- `json.Unmarshal` of a stored value into a `logRecord`
(part_000, line 215): the value must be a JSON object and every present
field must have the matching type; missing fields take zero values. -/
def decodeLogRecord : Json → Option LogRecordT
  | .obj fields => do
      let p ← decodePayload (lookupField fields "payload")
      let pl ← decodePipelines (lookupField fields "pipelines")
      let ra ← decodeReceivedAt (lookupField fields "received_at")
      some ⟨p, pl, ra⟩
  | _ => none

/-! ## The Pebble store

Pebble is a key-value store with string (byte) keys; it is embedded as an
association list of (key, stored JSON value) pairs kept in iteration
(key) order. We state Nodup hypotheses on the key column where the claims
need that Pebble keys are unique, which they are in a real store. -/

/-- One Pebble state: the persisted entries in key order. -/
abbrev PebbleQueue := List (String × Json)

/-- `db.Set(key, value)` map semantics: a write under an existing key
silently replaces the previous value. -/
def pebbleSet (queue : PebbleQueue) (key : String) (value : Json) : PebbleQueue :=
  (key, value) :: queue.filter (fun e => e.1 != key)

/-- `PebbleIsEmpty` (part_000, lines 250-262): true iff the iterator has
no first entry. -/
def PebbleIsEmpty (queue : PebbleQueue) : Bool :=
  queue.isEmpty

/-- Key generation in `SendLog` (part_000, line 127):
fmt.Sprintf with the current Unix-nanosecond clock reading and a random
draw from rand.Intn(1000). Both are environment inputs here. -/
def genKey (nowUnixNano : Int) (randVal : Nat) : String :=
  toString nowUnixNano ++ "_" ++ toString randVal

/-- The gRPC request of `SendLog`: `jsonData` is carried already split by
the result of `json.Unmarshal` into `map[string]any` — `none` embeds a
string that is not parseable as a structured key-to-value document. -/
structure LogRequest where
  JsonData : Option (List (String × Json))
  Pipelines : List String

/-- The gRPC response of `SendLog`. -/
structure LogResponse where
  Success : Bool
  Message : String
deriving Repr, DecidableEq

/-- `SendLog` (part_000, lines 115-136). Environment inputs: the clock
reading and random draw for the key, the formatted received-at timestamp,
and whether the Pebble write succeeds. On an unparseable payload the
record is still stored with an empty document; on a write failure the
response reports failure but no error is returned to gRPC. -/
def SendLog (req : LogRequest) (nowUnixNano : Int) (randVal : Nat)
    (receivedAt : String) (writeOk : Bool) (queue : PebbleQueue) :
    PebbleQueue × LogResponse :=
  let out := req.JsonData.getD []
  let r : LogRecordT := { Payload := out, Pipelines := req.Pipelines, ReceivedAt := receivedAt }
  let data := encodeLogRecord r
  let key := genKey nowUnixNano randVal
  if writeOk then (pebbleSet queue key data, ⟨true, "stored"⟩)
  else (queue, ⟨false, "Db write failed"⟩)

/-- `deleteKeysBatch` (part_000, lines 176-187): all deletes are staged in
one write batch and committed atomically. `commitOk` embeds whether the
commit succeeds (the injected-failure case); on failure the store is
untouched. Returns the resulting store and the error, if any. -/
def deleteKeysBatch (queue : PebbleQueue) (keys : List String) (commitOk : Bool) :
    PebbleQueue × Option String :=
  if commitOk then (queue.filter (fun e => !(keys.contains e.1)), none)
  else (queue, some "batch commit failed")

/-! ## Delivery (client, part_001) -/

/-- Outcome of one `client.Post` delivery call: a transport-level failure
(connection refused, timeout, DNS, carried with its message) or an HTTP
response with its status code and body string. -/
inductive HttpOutcome where
  | transportError (msg : String)
  | response (status : Nat) (body : String)
deriving Repr

/-- The line `logToFile` (part_001, lines 13-26) appends to an outcome log:
the original record under log_data plus the extra context fields. -/
def logFileLine (r : LogRecordT) (extras : List (String × Json)) : Json :=
  .obj [("log_data", encodeLogRecord r), ("context", .obj extras)]

/-- Result of one `sendToServer` call: the returned pair (addKey, err) plus
the lines appended to the success and failure outcome logs. -/
structure SendResult where
  addKey : Bool
  err : Option String
  successLines : List Json
  failureLines : List Json
deriving Repr

/-- `sendToServer` (part_001, lines 36-86), with the HTTP call's outcome as
an explicit input. 2xx: success-log line, delete. 300..500: failure-log
line with body and status, delete. Over 500: error, keep. Transport
failure: error, keep. Anything else (sub-200): the final fallback, delete
with no outcome line. -/
def sendToServer (r : LogRecordT) (outcome : HttpOutcome) : SendResult :=
  match outcome with
  | .transportError msg => ⟨false, some msg, [], []⟩
  | .response status body =>
    if 200 ≤ status ∧ status < 300 then
      ⟨true, none, [logFileLine r []], []⟩
    else if 300 ≤ status ∧ status ≤ 500 then
      ⟨true, none, [],
        [logFileLine r [("response", .str body), ("responseCode", .num (Int.ofNat status))]]⟩
    else if 500 < status then
      ⟨false, some ("server_error, status " ++ toString status), [], []⟩
    else
      ⟨true, none, [], []⟩

/-! ## The replay pass (ProcessPebble, part_000) -/

/-- Accumulated state of the scan loop inside `ProcessPebble`
(part_000, lines 208-232): keys marked for deletion, appended outcome-log
lines, keys whose records had a delivery attempted, and the first error
that broke the loop. -/
structure ScanState where
  keys : List String
  successLines : List Json
  failureLines : List Json
  attempted : List String
  serverErr : Option String
deriving Repr

/-- The scan loop of `ProcessPebble`: walk entries in key order; skip an
entry whose value does not decode; deliver each decoded record; on an
error from `sendToServer` record it and break; otherwise mark the key when
addKey is true and continue. `deliver` gives each record's simulated
remote outcome. -/
def scanLoop (deliver : LogRecordT → HttpOutcome) : PebbleQueue → ScanState
  | [] => ⟨[], [], [], [], none⟩
  | (k, v) :: rest =>
    match decodeLogRecord v with
    | none => scanLoop deliver rest
    | some r =>
      let res := sendToServer r (deliver r)
      match res.err with
      | some e => ⟨[], res.successLines, res.failureLines, [k], some e⟩
      | none =>
        let s := scanLoop deliver rest
        ⟨(if res.addKey then [k] else []) ++ s.keys,
         res.successLines ++ s.successLines,
         res.failureLines ++ s.failureLines,
         k :: s.attempted,
         s.serverErr⟩

/-- Everything one `ProcessPebble` pass produces: the store after the pass,
the returned error, the appended outcome-log lines, and the keys attempted. -/
structure PassOutput where
  queue : PebbleQueue
  err : Option String
  successLines : List Json
  failureLines : List Json
  attempted : List String
deriving Repr

/-- `ProcessPebble` (part_000, lines 192-246): run the scan loop, then, if
any keys were marked, delete them as one batch; a batch failure is
returned in place of the scan's error, otherwise the scan's first
transient error (or none) is returned. `commitOk` embeds whether the batch
commit succeeds. -/
def ProcessPebble (deliver : LogRecordT → HttpOutcome) (commitOk : Bool)
    (queue : PebbleQueue) : PassOutput :=
  let s := scanLoop deliver queue
  if s.keys.isEmpty then
    ⟨queue, s.serverErr, s.successLines, s.failureLines, s.attempted⟩
  else
    match deleteKeysBatch queue s.keys commitOk with
    | (q, some e) => ⟨q, some e, s.successLines, s.failureLines, s.attempted⟩
    | (q, none) => ⟨q, s.serverErr, s.successLines, s.failureLines, s.attempted⟩

/-! ## The accepting flag (grpc_server.go, config part) -/

/-- State of the accepting-flag latch: whether the marker file
agent-status.lock exists in the base directory, and whether this config
holds an open handle to it. -/
structure FlagState where
  fileExists : Bool
  handleHeld : Bool
deriving Repr, DecidableEq

/-- `EnableAcceptingFlag` (grpc_server.go source, lines 160-168): creates
the lock file with O_CREATE|O_EXCL, which fails exactly when the file
already exists. -/
def EnableAcceptingFlag (s : FlagState) : FlagState × Option String :=
  if s.fileExists then (s, some "file exists")
  else ({ fileExists := true, handleHeld := true }, none)

/-- `DisableAcceptingFlag` (grpc_server.go source, lines 172-179): closes
the handle and removes the marker file; never fails. -/
def DisableAcceptingFlag (_s : FlagState) : FlagState × Option String :=
  ({ fileExists := false, handleHeld := false }, none)

/-! ## The lifecycle control loop (main, grpc_server.go source) -/

/-- Why one iteration of the mainRoutine loop leaves the loop:
cancellation was observed at one of its checks, or the server was healthy
and Pebble was empty. -/
inductive ExitReason where
  | cancelled
  | pebbleEmpty
deriving Repr, DecidableEq

/-- What one iteration of the mainRoutine loop did: whether it left the
loop and why, whether it ran a ProcessPebble replay pass, the flag state
afterwards, and the queue afterwards. -/
structure IterResult where
  exit : Option ExitReason
  replayRan : Bool
  flag : FlagState
  queue : PebbleQueue
deriving Repr

/-- One iteration of the mainRoutine loop (main, lines 247-299). The
cancellation signal is sampled at its three check points as c1 (loop top),
c2 (after a ProcessPebble error), c3 (after a clean ProcessPebble);
`healthy` is the result of IsHealthSuccess. Healthy branch: release the
flag, and exit when Pebble is empty, otherwise run one replay pass.
Unhealthy branch: acquire the flag when not held; no replay. Sleeps are
not modelled; each iteration's other effects are returned. -/
def mainIteration (c1 c2 c3 healthy : Bool) (flag : FlagState)
    (deliver : LogRecordT → HttpOutcome) (commitOk : Bool)
    (queue : PebbleQueue) : IterResult :=
  if c1 then ⟨some .cancelled, false, flag, queue⟩
  else if healthy then
    let flag := (DisableAcceptingFlag flag).1
    if PebbleIsEmpty queue then ⟨some .pebbleEmpty, false, flag, queue⟩
    else
      let out := ProcessPebble deliver commitOk queue
      if out.err.isSome then
        if c2 then ⟨some .cancelled, true, flag, out.queue⟩
        else ⟨none, true, flag, out.queue⟩
      else if c3 then ⟨some .cancelled, true, flag, out.queue⟩
      else ⟨none, true, flag, out.queue⟩
  else if !flag.handleHeld then
    ⟨none, false, (EnableAcceptingFlag flag).1, queue⟩
  else
    ⟨none, false, flag, queue⟩

/-! ## Concrete fixtures for closed-instance checks -/

/-- Fixture record tagged A. -/
def recA : LogRecordT := ⟨[], ["p"], "A"⟩

/-- Fixture record tagged B. -/
def recB : LogRecordT := ⟨[], ["p"], "B"⟩

/-- Fixture record tagged C. -/
def recC : LogRecordT := ⟨[], ["p"], "C"⟩

/-- Fixture delivery oracle: the remote answers 503 to record B and 200
to everything else. -/
def deliverABC : LogRecordT → HttpOutcome := fun r =>
  if r.ReceivedAt = "B" then .response 503 "overloaded" else .response 200 ""

/-- Fixture store holding A, B, C in key order. -/
def queueABC : PebbleQueue :=
  [("k1", encodeLogRecord recA), ("k2", encodeLogRecord recB), ("k3", encodeLogRecord recC)]

/-! ## Helper lemmas -/

/-- Decoding a JSON array of strings recovers the original list. -/
theorem decodeStringList_map (l : List String) :
    decodeStringList (l.map .str) = some l := by
  induction l with
  | nil => rfl
  | cons a t ih => simp [decodeStringList, ih]

/-- Round-trip of the serialized record, shared helper. -/
theorem decode_encode_eq (r : LogRecordT) :
    decodeLogRecord (encodeLogRecord r) = some r := by
  cases r with
  | mk p pl ra =>
    simp [encodeLogRecord, decodeLogRecord, lookupField, List.lookup,
      decodePayload, decodePipelines, decodeReceivedAt, decodeStringList_map]

/-! ## Claims -/

/-- C6: for every record enqueued, decoding the stored bytes yields a
record with identical payload, pipeline tags (and timestamp):
decode(encode(r)) = r for the persisted LogRecord. -/
theorem claim_C6_roundtrip (r : LogRecordT) :
    decodeLogRecord (encodeLogRecord r) = some r :=
  decode_encode_eq r

/-- C10: a delivery attempt whose HTTP response status is below 200 falls
through every classification branch of sendToServer: the record is marked
for deletion (addKey = true, no error) and no line is appended to either
outcome log. -/
theorem claim_C10_sub200_fallback (r : LogRecordT) (status : Nat) (body : String)
    (h : status < 200) :
    sendToServer r (.response status body) = ⟨true, none, [], []⟩ := by
  show (if 200 ≤ status ∧ status < 300 then _ else _) = _
  rw [if_neg (by omega), if_neg (by omega), if_neg (by omega)]

/-- Witness for C10: a 100 Continue response is classified for deletion
with no outcome-log line. -/
theorem claim_C10_witness :
    sendToServer ⟨[], [], ""⟩ (.response 100 "") = ⟨true, none, [], []⟩ :=
  claim_C10_sub200_fallback ⟨[], [], ""⟩ 100 "" (by decide)

/-- C8: from a state in which the marker file does not exist, the first
EnableAcceptingFlag succeeds and a second one, with no intervening
release, fails with an error — so at most one AcceptingFlag exists per
base directory at a time. -/
theorem claim_C8_flag_mutual_exclusion (s : FlagState) (h : s.fileExists = false) :
    (EnableAcceptingFlag s).2 = none ∧
    ((EnableAcceptingFlag (EnableAcceptingFlag s).1).2).isSome = true := by
  simp [EnableAcceptingFlag, h]

/-- Witness for C8 at the initial state with no marker file. -/
theorem claim_C8_witness :
    (EnableAcceptingFlag ⟨false, false⟩).2 = none ∧
    ((EnableAcceptingFlag (EnableAcceptingFlag ⟨false, false⟩).1).2).isSome = true :=
  claim_C8_flag_mutual_exclusion ⟨false, false⟩ rfl

/-- C4: a DeleteBatch over a set of keys is atomic: on a successful commit
every one of the keys is removed (the resulting store is exactly the old
one without those keys); on a failed commit the store is unchanged, so no
partial deletion is ever observable. -/
theorem claim_C4_delete_batch_atomic (queue : PebbleQueue) (keys : List String)
    (commitOk : Bool) :
    (commitOk = true →
      (deleteKeysBatch queue keys commitOk).2 = none ∧
      (deleteKeysBatch queue keys commitOk).1
        = queue.filter (fun e => !(keys.contains e.1)) ∧
      ∀ k ∈ keys, k ∉ ((deleteKeysBatch queue keys commitOk).1).map Prod.fst) ∧
    (commitOk = false →
      ((deleteKeysBatch queue keys commitOk).2).isSome = true ∧
      (deleteKeysBatch queue keys commitOk).1 = queue) := by
  constructor
  · intro hc
    subst hc
    refine ⟨rfl, rfl, ?_⟩
    intro k hk hmem
    simp only [deleteKeysBatch, if_pos] at hmem
    rcases List.mem_map.mp hmem with ⟨e, he, hek⟩
    rcases List.mem_filter.mp he with ⟨-, hcon⟩
    rw [hek] at hcon
    simp [List.elem_iff] at hcon
    exact hcon hk
  · intro hc
    subst hc
    exact ⟨rfl, rfl⟩

/-- Witness for C4: a two-entry store with one key deleted on success, and
the same store untouched on an injected commit failure. -/
theorem claim_C4_witness :
    (deleteKeysBatch [("a", Json.null), ("b", Json.null)] ["a"] true).2 = none ∧
    (deleteKeysBatch [("a", Json.null), ("b", Json.null)] ["a"] false).1
      = [("a", Json.null), ("b", Json.null)] :=
  ⟨((claim_C4_delete_batch_atomic [("a", Json.null), ("b", Json.null)] ["a"] true).1 rfl).1,
   ((claim_C4_delete_batch_atomic [("a", Json.null), ("b", Json.null)] ["a"] false).2 rfl).2⟩

/-- C5: an ingestion call whose jsonData is not parseable as a structured
key-to-value document still persists the record, with an empty document
substituted as the payload, and the call reports success rather than being
rejected for the decode error. -/
theorem claim_C5_unparseable_payload_recovered (pipelines : List String)
    (nowUnixNano : Int) (randVal : Nat) (receivedAt : String) (queue : PebbleQueue) :
    SendLog ⟨none, pipelines⟩ nowUnixNano randVal receivedAt true queue
      = (pebbleSet queue (genKey nowUnixNano randVal)
          (encodeLogRecord ⟨[], pipelines, receivedAt⟩), ⟨true, "stored"⟩) :=
  rfl

/-- C3: evaluating the enqueue path at the failing input. Two distinct
SendLog calls that observe the same clock reading (UnixNano) and draw the
same value from rand.Intn(1000) generate the same key, and the second
write silently replaces the first: after both calls the store holds a
single entry carrying only the second record. -/
theorem claim_C3_key_collision_loses_record :
    genKey 1700000000000000000 42 = genKey 1700000000000000000 42 ∧
    (SendLog ⟨some [("b", Json.num 2)], []⟩ 1700000000000000000 42 "t2" true
      (SendLog ⟨some [("a", Json.num 1)], []⟩ 1700000000000000000 42 "t1" true []).1).1
      = [(genKey 1700000000000000000 42,
          encodeLogRecord ⟨[("b", Json.num 2)], [], "t2"⟩)] := by
  constructor
  · rfl
  · rfl

/-- C1: classification of a delivery attempt that yielded an HTTP
response: status in [200,299] marks the entry for deletion and appends
exactly one success-log line; status in [300,500] marks the entry for
deletion and appends exactly one failure-log line carrying the response
body and status; status over 500 and transport-level failures do not mark
the entry for deletion. -/
theorem claim_C1_status_classification (r : LogRecordT) (status : Nat)
    (body : String) (msg : String) :
    (200 ≤ status ∧ status ≤ 299 →
      sendToServer r (.response status body)
        = ⟨true, none, [logFileLine r []], []⟩) ∧
    (300 ≤ status ∧ status ≤ 500 →
      sendToServer r (.response status body)
        = ⟨true, none, [],
            [logFileLine r [("response", .str body),
                            ("responseCode", .num (Int.ofNat status))]]⟩) ∧
    (500 < status →
      (sendToServer r (.response status body)).addKey = false ∧
      (sendToServer r (.response status body)).err.isSome = true) ∧
    ((sendToServer r (.transportError msg)).addKey = false ∧
      (sendToServer r (.transportError msg)).err.isSome = true) := by
  refine ⟨fun h => ?_, fun h => ?_, fun h => ?_, ?_⟩
  · show (if 200 ≤ status ∧ status < 300 then _ else _) = _
    rw [if_pos (by omega)]
  · show (if 200 ≤ status ∧ status < 300 then _ else _) = _
    rw [if_neg (by omega), if_pos (by omega)]
  · have hs : sendToServer r (.response status body)
        = ⟨false, some ("server_error, status " ++ toString status), [], []⟩ := by
      show (if 200 ≤ status ∧ status < 300 then _ else _) = _
      rw [if_neg (by omega), if_neg (by omega), if_pos (by omega)]
    rw [hs]
    exact ⟨rfl, rfl⟩
  · exact ⟨rfl, rfl⟩

/-- Witness for C1 at statuses 204, 404, 503 and a transport failure. -/
theorem claim_C1_witness :
    sendToServer ⟨[], [], ""⟩ (.response 204 "")
      = ⟨true, none, [logFileLine ⟨[], [], ""⟩ []], []⟩ ∧
    sendToServer ⟨[], [], ""⟩ (.response 404 "nf")
      = ⟨true, none, [],
          [logFileLine ⟨[], [], ""⟩ [("response", .str "nf"),
                                     ("responseCode", .num (Int.ofNat 404))]]⟩ ∧
    (sendToServer ⟨[], [], ""⟩ (.response 503 "")).addKey = false ∧
    (sendToServer ⟨[], [], ""⟩ (.transportError "refused")).addKey = false := by
  have h1 := claim_C1_status_classification ⟨[], [], ""⟩ 204 "" "refused"
  have h2 := claim_C1_status_classification ⟨[], [], ""⟩ 404 "nf" "refused"
  have h3 := claim_C1_status_classification ⟨[], [], ""⟩ 503 "" "refused"
  exact ⟨h1.1 (by omega), h2.2.1 (by omega), (h3.2.2.1 (by omega)).1, h1.2.2.2.1⟩

/-- In an association list whose key column has no duplicates, a key
determines its stored value. -/
theorem assoc_nodup_eq (l : PebbleQueue) (hnd : (l.map Prod.fst).Nodup)
    (k : String) (v w : Json) (hv : (k, v) ∈ l) (hw : (k, w) ∈ l) : v = w := by
  induction l with
  | nil => cases hv
  | cons hd tl ih =>
    rw [List.map_cons, List.nodup_cons] at hnd
    rcases List.mem_cons.mp hv with hv1 | hv1
    · rcases List.mem_cons.mp hw with hw1 | hw1
      · exact ((Prod.mk.injEq _ _ _ _).mp (hv1.trans hw1.symm)).2
      · exfalso
        apply hnd.1
        rw [← hv1]
        exact List.mem_map.mpr ⟨(k, w), hw1, rfl⟩
    · rcases List.mem_cons.mp hw with hw1 | hw1
      · exfalso
        apply hnd.1
        rw [← hw1]
        exact List.mem_map.mpr ⟨(k, v), hv1, rfl⟩
      · exact ih hnd.2 hv1 hw1

/-- A key that the scan loop marked or attempted belongs to an entry of
the scanned list whose value decodes as a record. -/
theorem scanLoop_mem_orig (deliver : LogRecordT → HttpOutcome) (l : PebbleQueue) (k : String)
    (h : k ∈ (scanLoop deliver l).keys ∨ k ∈ (scanLoop deliver l).attempted) :
    ∃ v s, (k, v) ∈ l ∧ decodeLogRecord v = some s := by
  induction l with
  | nil => simp [scanLoop] at h
  | cons hd tl ih =>
    obtain ⟨k0, v0⟩ := hd
    cases hdec : decodeLogRecord v0 with
    | none =>
      simp only [scanLoop, hdec] at h
      obtain ⟨v, s, hm, hd2⟩ := ih h
      exact ⟨v, s, List.mem_cons_of_mem _ hm, hd2⟩
    | some s0 =>
      cases herr : (sendToServer s0 (deliver s0)).err with
      | some e =>
        simp only [scanLoop, hdec, herr] at h
        have hk : k = k0 := by
          rcases h with h | h
          · simp at h
          · simpa using h
        exact ⟨v0, s0, by rw [hk]; exact List.mem_cons_self _ _, hdec⟩
      | none =>
        simp only [scanLoop, hdec, herr] at h
        by_cases hk : k = k0
        · exact ⟨v0, s0, by rw [hk]; exact List.mem_cons_self _ _, hdec⟩
        · have h2 : k ∈ (scanLoop deliver tl).keys ∨ k ∈ (scanLoop deliver tl).attempted := by
            rcases h with h | h
            · left
              rcases List.mem_append.mp h with h1 | h1
              · exfalso
                revert h1
                cases (sendToServer s0 (deliver s0)).addKey <;> simp [hk]
              · exact h1
            · right
              rcases List.mem_cons.mp h with h1 | h1
              · exact absurd h1 hk
              · exact h1
          obtain ⟨v, s, hm, hd2⟩ := ih h2
          exact ⟨v, s, List.mem_cons_of_mem _ hm, hd2⟩

/-- The scan loop leaves the attempted list unchanged by the batch delete:
ProcessPebble reports exactly the scan loop's attempted keys. -/
theorem ProcessPebble_attempted (deliver : LogRecordT → HttpOutcome) (commitOk : Bool)
    (queue : PebbleQueue) :
    (ProcessPebble deliver commitOk queue).attempted = (scanLoop deliver queue).attempted := by
  simp only [ProcessPebble, deleteKeysBatch]
  by_cases hk : (scanLoop deliver queue).keys.isEmpty = true
  · simp [hk]
  · cases commitOk <;> simp [hk]

/-- ProcessPebble's resulting store: either the original one (no keys
marked, or failed commit) or the original one filtered by the marked keys. -/
theorem ProcessPebble_queue_cases (deliver : LogRecordT → HttpOutcome) (commitOk : Bool)
    (queue : PebbleQueue) :
    (ProcessPebble deliver commitOk queue).queue = queue ∨
    (ProcessPebble deliver commitOk queue).queue
      = queue.filter (fun e => !((scanLoop deliver queue).keys.contains e.1)) := by
  simp only [ProcessPebble, deleteKeysBatch]
  by_cases hk : (scanLoop deliver queue).keys.isEmpty = true
  · exact Or.inl (by simp [hk])
  · cases commitOk
    · exact Or.inl (by simp [hk])
    · exact Or.inr (by simp [hk])

/-- The scan loop on a prefix with no transient outcome followed by the
rest of the entries: the prefix is fully processed and the rest's result
is appended; the pass error is the rest's error. -/
theorem scanLoop_append_no_transient (deliver : LogRecordT → HttpOutcome)
    (pre rest : PebbleQueue)
    (hpre : ∀ kv ∈ pre, ∀ s, decodeLogRecord kv.2 = some s →
        (sendToServer s (deliver s)).err = none) :
    scanLoop deliver (pre ++ rest)
      = ⟨(scanLoop deliver pre).keys ++ (scanLoop deliver rest).keys,
         (scanLoop deliver pre).successLines ++ (scanLoop deliver rest).successLines,
         (scanLoop deliver pre).failureLines ++ (scanLoop deliver rest).failureLines,
         (scanLoop deliver pre).attempted ++ (scanLoop deliver rest).attempted,
         (scanLoop deliver rest).serverErr⟩ := by
  induction pre with
  | nil => simp [scanLoop]
  | cons hd tl ih =>
    obtain ⟨k0, v0⟩ := hd
    have htl : ∀ kv ∈ tl, ∀ s, decodeLogRecord kv.2 = some s →
        (sendToServer s (deliver s)).err = none :=
      fun kv hkv => hpre kv (List.mem_cons_of_mem _ hkv)
    cases hdec : decodeLogRecord v0 with
    | none =>
      simp only [List.cons_append, scanLoop, hdec]
      exact ih htl
    | some s =>
      have herr := hpre (k0, v0) (List.mem_cons_self _ _) s hdec
      simp only [List.cons_append, scanLoop, hdec, herr, List.append_eq]
      rw [ih htl]
      simp [List.append_assoc]

/-- The scan loop breaks at an entry whose delivery is transient: the
entry is attempted but nothing is marked and the error is recorded. -/
theorem scanLoop_cons_transient (deliver : LogRecordT → HttpOutcome) (k : String)
    (v : Json) (rest : PebbleQueue) (r : LogRecordT) (e : String)
    (hdec : decodeLogRecord v = some r)
    (herr : (sendToServer r (deliver r)).err = some e) :
    scanLoop deliver ((k, v) :: rest)
      = ⟨[], (sendToServer r (deliver r)).successLines,
          (sendToServer r (deliver r)).failureLines, [k], some e⟩ := by
  simp only [scanLoop, hdec, herr]

/-- A scan over entries none of which has a transient outcome records no
error. -/
theorem scanLoop_no_transient (deliver : LogRecordT → HttpOutcome) (l : PebbleQueue)
    (h : ∀ kv ∈ l, ∀ s, decodeLogRecord kv.2 = some s →
        (sendToServer s (deliver s)).err = none) :
    (scanLoop deliver l).serverErr = none := by
  induction l with
  | nil => rfl
  | cons hd tl ih =>
    obtain ⟨k0, v0⟩ := hd
    have htl : ∀ kv ∈ tl, ∀ s, decodeLogRecord kv.2 = some s →
        (sendToServer s (deliver s)).err = none :=
      fun kv hkv => h kv (List.mem_cons_of_mem _ hkv)
    cases hdec : decodeLogRecord v0 with
    | none =>
      simp only [scanLoop, hdec]
      exact ih htl
    | some s =>
      have herr := h (k0, v0) (List.mem_cons_self _ _) s hdec
      simp only [scanLoop, hdec, herr]
      exact ih htl

/-- With a successful batch commit, ProcessPebble returns the scan loop's
error (the first transient error, or none). -/
theorem ProcessPebble_err_true (deliver : LogRecordT → HttpOutcome) (queue : PebbleQueue) :
    (ProcessPebble deliver true queue).err = (scanLoop deliver queue).serverErr := by
  simp only [ProcessPebble, deleteKeysBatch]
  by_cases hk : (scanLoop deliver queue).keys.isEmpty = true <;> simp [hk]

/-- With a successful batch commit, an entry survives the pass exactly
when its key was not marked by the scan loop. -/
theorem ProcessPebble_mem_queue_true (deliver : LogRecordT → HttpOutcome)
    (queue : PebbleQueue) (kv : String × Json) :
    kv ∈ (ProcessPebble deliver true queue).queue ↔
      kv ∈ queue ∧ kv.1 ∉ (scanLoop deliver queue).keys := by
  simp only [ProcessPebble, deleteKeysBatch]
  by_cases hk : (scanLoop deliver queue).keys.isEmpty = true
  · rw [List.isEmpty_iff] at hk
    simp [hk]
  · simp [hk, List.mem_filter, List.elem_iff]

/-- C9: a persisted entry whose stored value does not decode as a
LogRecord is skipped by a replay pass — no delivery is attempted for it,
it is not deleted, and the Queue is not observed empty after the pass
while it is present. -/
theorem claim_C9_undecodable_entry_retained
    (deliver : LogRecordT → HttpOutcome) (commitOk : Bool) (queue : PebbleQueue)
    (k0 : String) (v0 : Json)
    (hmem : (k0, v0) ∈ queue)
    (hnd : (queue.map Prod.fst).Nodup)
    (hdec : decodeLogRecord v0 = none) :
    k0 ∉ (ProcessPebble deliver commitOk queue).attempted ∧
    (k0, v0) ∈ (ProcessPebble deliver commitOk queue).queue ∧
    PebbleIsEmpty ((ProcessPebble deliver commitOk queue).queue) = false := by
  have hreach : ∀ hk : k0 ∈ (scanLoop deliver queue).keys ∨
      k0 ∈ (scanLoop deliver queue).attempted, False := by
    intro hk
    obtain ⟨v, s, hm, hds⟩ := scanLoop_mem_orig deliver queue k0 hk
    rw [assoc_nodup_eq queue hnd k0 v0 v hmem hm] at hdec
    rw [hdec] at hds
    cases hds
  have hqmem : (k0, v0) ∈ (ProcessPebble deliver commitOk queue).queue := by
    rcases ProcessPebble_queue_cases deliver commitOk queue with hq | hq
    · rw [hq]; exact hmem
    · rw [hq]
      refine List.mem_filter.mpr ⟨hmem, ?_⟩
      simp only [Bool.not_eq_true']
      rw [← Bool.not_eq_true]
      intro hcon
      exact hreach (Or.inl (List.elem_iff.mp hcon))
  refine ⟨?_, hqmem, ?_⟩
  · rw [ProcessPebble_attempted]
    exact fun hc => hreach (Or.inr hc)
  · show ((ProcessPebble deliver commitOk queue).queue).isEmpty = false
    rw [List.isEmpty_eq_false]
    exact List.ne_nil_of_mem hqmem

/-- Witness for C9: a one-entry store whose value is a bare JSON string;
the pass attempts nothing, retains the entry, and the store is non-empty. -/
theorem claim_C9_witness :
    "bad" ∉ (ProcessPebble (fun _ => .response 200 "") true
      [("bad", Json.str "junk")]).attempted ∧
    ("bad", Json.str "junk") ∈ (ProcessPebble (fun _ => .response 200 "") true
      [("bad", Json.str "junk")]).queue ∧
    PebbleIsEmpty ((ProcessPebble (fun _ => .response 200 "") true
      [("bad", Json.str "junk")]).queue) = false := by
  refine claim_C9_undecodable_entry_retained (fun _ => .response 200 "") true
    [("bad", Json.str "junk")] "bad" (Json.str "junk") ?_ ?_ ?_
  · exact List.mem_singleton.mpr rfl
  · simp
  · rfl

/-- C2: with the batch commit succeeding, the first transient outcome
(status over 500 or a transport failure) in a replay pass aborts the
remainder of the pass: nothing past the failing entry is attempted, the
failing entry and every entry after it stay in the Queue, the entries
marked earlier in the pass are deleted by the one batch, and the pass
returns that first transient error; a pass in which every attempted
delivery is classified success or permanent failure returns no error. -/
theorem claim_C2_first_transient_aborts (deliver : LogRecordT → HttpOutcome) :
    (∀ (pre post : PebbleQueue) (k : String) (v : Json) (r : LogRecordT) (e : String),
      (((pre ++ (k, v) :: post).map Prod.fst).Nodup) →
      (∀ kv ∈ pre, ∀ s, decodeLogRecord kv.2 = some s →
          (sendToServer s (deliver s)).err = none) →
      decodeLogRecord v = some r →
      (sendToServer r (deliver r)).err = some e →
      (ProcessPebble deliver true (pre ++ (k, v) :: post)).err = some e ∧
      (ProcessPebble deliver true (pre ++ (k, v) :: post)).attempted
        = (scanLoop deliver pre).attempted ++ [k] ∧
      (k, v) ∈ (ProcessPebble deliver true (pre ++ (k, v) :: post)).queue ∧
      (∀ kv ∈ post, kv ∈ (ProcessPebble deliver true (pre ++ (k, v) :: post)).queue ∧
          kv.1 ∉ (ProcessPebble deliver true (pre ++ (k, v) :: post)).attempted) ∧
      (∀ kv ∈ pre, kv.1 ∈ (scanLoop deliver pre).keys →
          kv ∉ (ProcessPebble deliver true (pre ++ (k, v) :: post)).queue)) ∧
    (∀ queue : PebbleQueue,
      (∀ kv ∈ queue, ∀ s, decodeLogRecord kv.2 = some s →
          (sendToServer s (deliver s)).err = none) →
      (ProcessPebble deliver true queue).err = none) := by
  constructor
  · intro pre post k v r e hnd hpre hdec herr
    have hscan := scanLoop_append_no_transient deliver pre ((k, v) :: post) hpre
    rw [scanLoop_cons_transient deliver k v post r e hdec herr] at hscan
    have hkeys : (scanLoop deliver (pre ++ (k, v) :: post)).keys
        = (scanLoop deliver pre).keys := by rw [hscan]; simp
    have hatt : (scanLoop deliver (pre ++ (k, v) :: post)).attempted
        = (scanLoop deliver pre).attempted ++ [k] := by rw [hscan]
    have herrq : (scanLoop deliver (pre ++ (k, v) :: post)).serverErr = some e := by
      rw [hscan]
    have hndmap : ((pre.map Prod.fst) ++ k :: (post.map Prod.fst)).Nodup := by
      simpa using hnd
    have hndk : k ∉ pre.map Prod.fst ++ post.map Prod.fst ∧
        (pre.map Prod.fst ++ post.map Prod.fst).Nodup :=
      List.nodup_cons.mp (List.nodup_middle.mp hndmap)
    have hdisj : ∀ x ∈ post.map Prod.fst, x ∉ pre.map Prod.fst := by
      intro x hx hx2
      exact (List.nodup_append.mp hndk.2).2.2 hx2 hx
    have hkpre : k ∉ pre.map Prod.fst := fun hc => hndk.1 (List.mem_append.mpr (Or.inl hc))
    have hkeys_pre : ∀ x ∈ (scanLoop deliver pre).keys, x ∈ pre.map Prod.fst := by
      intro x hx
      obtain ⟨v', s', hm, -⟩ := scanLoop_mem_orig deliver pre x (Or.inl hx)
      exact List.mem_map.mpr ⟨(x, v'), hm, rfl⟩
    have hatt_pre : ∀ x ∈ (scanLoop deliver pre).attempted, x ∈ pre.map Prod.fst := by
      intro x hx
      obtain ⟨v', s', hm, -⟩ := scanLoop_mem_orig deliver pre x (Or.inr hx)
      exact List.mem_map.mpr ⟨(x, v'), hm, rfl⟩
    refine ⟨?_, ?_, ?_, ?_, ?_⟩
    · rw [ProcessPebble_err_true, herrq]
    · rw [ProcessPebble_attempted, hatt]
    · rw [ProcessPebble_mem_queue_true]
      refine ⟨List.mem_append.mpr (Or.inr (List.mem_cons_self _ _)), ?_⟩
      rw [hkeys]
      exact fun hc => hkpre (hkeys_pre k hc)
    · intro kv hkv
      constructor
      · rw [ProcessPebble_mem_queue_true]
        refine ⟨List.mem_append.mpr (Or.inr (List.mem_cons_of_mem _ hkv)), ?_⟩
        rw [hkeys]
        intro hc
        exact hdisj kv.1 (List.mem_map.mpr ⟨kv, hkv, rfl⟩) (hkeys_pre kv.1 hc)
      · rw [ProcessPebble_attempted, hatt]
        intro hc
        rcases List.mem_append.mp hc with hc | hc
        · exact hdisj kv.1 (List.mem_map.mpr ⟨kv, hkv, rfl⟩) (hatt_pre kv.1 hc)
        · have hck : kv.1 = k := by simpa using hc
          apply hndk.1
          exact List.mem_append.mpr (Or.inr (hck ▸ List.mem_map.mpr ⟨kv, hkv, rfl⟩))
    · intro kv hkv hmark hmem
      rw [ProcessPebble_mem_queue_true, hkeys] at hmem
      exact hmem.2 hmark
  · intro queue hall
    rw [ProcessPebble_err_true]
    exact scanLoop_no_transient deliver queue hall

/-- Witness for C2: the concrete scenario of three records A, B, C whose
simulated responses are 200, 503, 200: the pass reports B's transient
error, A is deleted, B and C remain in the Queue, and C is never
attempted. -/
theorem claim_C2_witness :
    (ProcessPebble deliverABC true queueABC).err = some "server_error, status 503" ∧
    ("k2", encodeLogRecord recB) ∈ (ProcessPebble deliverABC true queueABC).queue ∧
    ("k3", encodeLogRecord recC) ∈ (ProcessPebble deliverABC true queueABC).queue ∧
    "k3" ∉ (ProcessPebble deliverABC true queueABC).attempted ∧
    ("k1", encodeLogRecord recA) ∉ (ProcessPebble deliverABC true queueABC).queue := by
  have h := (claim_C2_first_transient_aborts deliverABC).1
    [("k1", encodeLogRecord recA)] [("k3", encodeLogRecord recC)]
    "k2" (encodeLogRecord recB) recB "server_error, status 503"
    (by decide)
    (by
      intro kv hkv s hs
      obtain ⟨k', v'⟩ := kv
      simp only [List.mem_singleton, Prod.mk.injEq] at hkv
      obtain ⟨hk1, hv1⟩ := hkv
      subst hk1
      subst hv1
      rw [decode_encode_eq] at hs
      injection hs with hs2
      subst hs2
      rfl)
    (decode_encode_eq recB)
    rfl
  have hpost := h.2.2.2.1 ("k3", encodeLogRecord recC) (List.mem_singleton.mpr rfl)
  have hdel := h.2.2.2.2 ("k1", encodeLogRecord recA) (List.mem_singleton.mpr rfl)
    (by decide)
  exact ⟨h.1, h.2.2.1, hpost.1, hpost.2, hdel⟩

/-- C7: a loop iteration that sees no cancellation, a healthy probe and an
empty Queue exits with Idle/Exit without running a replay pass; and the
only exits are that one (which requires a healthy probe and an empty
Queue, and runs no replay) or an observed cancellation. -/
theorem claim_C7_lifecycle_exit (c2 c3 : Bool) (flag : FlagState)
    (deliver : LogRecordT → HttpOutcome) (commitOk : Bool) (queue : PebbleQueue) :
    (PebbleIsEmpty queue = true →
      (mainIteration false c2 c3 true flag deliver commitOk queue).exit
        = some .pebbleEmpty ∧
      (mainIteration false c2 c3 true flag deliver commitOk queue).replayRan = false) ∧
    (∀ c1 healthy : Bool,
      (mainIteration c1 c2 c3 healthy flag deliver commitOk queue).exit
          = some .pebbleEmpty →
        healthy = true ∧ PebbleIsEmpty queue = true ∧
        (mainIteration c1 c2 c3 healthy flag deliver commitOk queue).replayRan = false) ∧
    (∀ c1 healthy : Bool,
      (mainIteration c1 c2 c3 healthy flag deliver commitOk queue).exit
          = some .cancelled →
        c1 = true ∨ c2 = true ∨ c3 = true) := by
  refine ⟨?_, ?_, ?_⟩
  · intro hemp
    simp [mainIteration, hemp]
  · intro c1 healthy
    obtain ⟨fe, fh⟩ := flag
    cases fh <;> cases c1 <;> cases healthy <;> cases hemp : PebbleIsEmpty queue <;>
      cases herr : (ProcessPebble deliver commitOk queue).err.isSome <;>
      cases c2 <;> cases c3 <;>
      simp_all [mainIteration]
  · intro c1 healthy
    obtain ⟨fe, fh⟩ := flag
    cases fh <;> cases c1 <;> cases healthy <;> cases hemp : PebbleIsEmpty queue <;>
      cases herr : (ProcessPebble deliver commitOk queue).err.isSome <;>
      cases c2 <;> cases c3 <;>
      simp_all [mainIteration]

/-- Witness for C7: with an empty store and a healthy probe the iteration
exits with Idle/Exit and runs no replay pass. -/
theorem claim_C7_witness :
    (mainIteration false false false true ⟨false, false⟩ deliverABC true []).exit
      = some ExitReason.pebbleEmpty ∧
    (mainIteration false false false true ⟨false, false⟩ deliverABC true []).replayRan
      = false :=
  (claim_C7_lifecycle_exit false false ⟨false, false⟩ deliverABC true []).1 rfl

end EchoPost
